import Mathlib

/-!
Verification of the media-poster directory-tree engine (`tree/tree.go`).

The Go code is shallowly embedded: Go strings are Lean `String`s (the
relevant helpers from `strings` and `path/filepath` are re-implemented below
on `List Char`, matching Go's byte-wise behaviour on the ASCII data the code
manipulates), Go maps become association lists with overwrite-on-insert
semantics, the `atomic.Int64` counters become `Int`, and the filesystem walk
is a parameter `fs : String → List (Except String Entry)` giving, for a
directory path, its immediate-child entries in walk order (an `Except.error`
item models a per-entry walk error, a list of only error items models a
directory that cannot be opened at all).  `fastwalk`'s own enumeration
mechanics (the root-path guard, the `filepath.Dir(path) != node.Path` guard
and the `SkipDir` returns that stop descent) are what restricts the callback
to immediate children; they are represented by `fs` yielding exactly those
immediate children.  The TTL cache is modelled by presence or absence of a
key: an expired entry behaves exactly like an absent one in the Go code.
Pointer aliasing between `VisibleNodes`, `nodeMap` and the node graph is not
modelled (nodes are values); the unbounded recursion of the warm-up scan is
bounded by an explicit `fuel` argument that the Go code never exhausts
(filesystem depth is finite), and both goroutines of `LoadAsync` are modelled
as having run to completion, sequentially after the constructor.
-/

namespace MediaPosters

/-- `strings.ToLower` (ASCII case folding, as the code only compares ASCII
extension and suffix literals). -/
def goToLower (s : String) : String := ⟨s.data.map Char.toLower⟩

/-- `strings.HasPrefix`. -/
def goStartsWith (s pre : String) : Bool := pre.data.isPrefixOf s.data

/-- `strings.HasSuffix`. -/
def goEndsWith (s suf : String) : Bool := suf.data.isSuffixOf s.data

/-- `strings.TrimSuffix`: drop `suf` from the end of `s` when it is present
(case-sensitively), otherwise return `s` unchanged. -/
def goTrimSuffix (s suf : String) : String :=
  if goEndsWith s suf then ⟨s.data.take (s.data.length - suf.data.length)⟩ else s

/-- `filepath.Ext`: the suffix of the name starting at its last dot, empty
when the name has no dot. -/
def filepathExt (name : String) : String :=
  if name.data.contains '.' then
    ⟨'.' :: (name.data.reverse.takeWhile (fun c => c != '.')).reverse⟩
  else ""

/-- `filepath.Base`: the last path element, trailing slashes removed; `"."`
for the empty path, `"/"` when the path consists only of slashes. -/
def filepathBase (p : String) : String :=
  if p = "" then "."
  else
    let cs := (p.data.reverse.dropWhile (fun c => c == '/')).reverse
    if cs = [] then "/" else ⟨(cs.reverse.takeWhile (fun c => c != '/')).reverse⟩

/-- One directory entry as the OS walk reports it (`os.DirEntry`: only the
name and the directory bit are consulted by the code). -/
structure Entry where
  name : String
  isDir : Bool
deriving DecidableEq

/-- `tree.Filter`: file/directory filtering rules. -/
structure Filter where
  SkipHidden : Bool
  SkipExtensions : List String
  MaxChildrenShow : Int
deriving DecidableEq

/-- `tree.DefaultFilter`. -/
def DefaultFilter : Filter :=
  { SkipHidden := true
    SkipExtensions := [".nfo", ".png"]
    MaxChildrenShow := 1000 }

/-- `(*Filter).ShouldSkip`: hidden names are skipped when `SkipHidden` is
set; the extension blacklist applies to non-directories only. -/
def Filter.ShouldSkip (f : Filter) (name : String) (isDir : Bool) : Bool :=
  if f.SkipHidden && goStartsWith name "." then true
  else if !isDir && f.SkipExtensions.contains (goToLower (filepathExt name)) then true
  else false

/-- `tree.IsVideoFile`. -/
def IsVideoFile (name : String) : Bool :=
  let ext := goToLower (filepathExt name)
  ext == ".mkv" || ext == ".avi" || ext == ".mp4" || ext == ".m4v"

/-- `tree.IsPosterFile`: a `.jpg`/`.jpeg` (case-insensitive) whose lowered
name ends in `-poster.jpg` or `-poster.jpeg`. -/
def IsPosterFile (name : String) : Bool :=
  let ext := goToLower (filepathExt name)
  if ext != ".jpg" && ext != ".jpeg" then false
  else goEndsWith (goToLower name) "-poster.jpg" || goEndsWith (goToLower name) "-poster.jpeg"

/-- `tree.Node`.  `children` makes the type nested-recursive, so it is an
inductive with named projections below; the `mu` lock has no functional
content and is omitted.  `parent` holds a value snapshot of the parent node
(Go stores a pointer; the back-edge is only ever read by `GoUp`). -/
inductive Node where
  | mk (name : String) (path : String) (isDir : Bool) (children : List Node)
       (parent : Option Node) (isVideo : Bool) (posterPath : String)

def Node.name : Node → String | ⟨n, _, _, _, _, _, _⟩ => n
def Node.path : Node → String | ⟨_, p, _, _, _, _, _⟩ => p
def Node.isDir : Node → Bool | ⟨_, _, d, _, _, _, _⟩ => d
def Node.children : Node → List Node | ⟨_, _, _, c, _, _, _⟩ => c
def Node.parent : Node → Option Node | ⟨_, _, _, _, p, _, _⟩ => p
def Node.isVideo : Node → Bool | ⟨_, _, _, _, _, v, _⟩ => v
def Node.posterPath : Node → String | ⟨_, _, _, _, _, _, pp⟩ => pp

/-- The in-place assignment `node.Children = cs`. -/
def Node.withChildren : Node → List Node → Node
  | ⟨n, p, d, _, par, v, pp⟩, cs => ⟨n, p, d, cs, par, v, pp⟩

/-- The in-place assignment `node.PosterPath = pp`. -/
def Node.withPosterPath : Node → String → Node
  | ⟨n, p, d, cs, par, v, _⟩, pp => ⟨n, p, d, cs, par, v, pp⟩

/-- Go map insertion `m[k] = v`: overwrite the existing binding or append. -/
def mapSet {α : Type} (m : List (String × α)) (k : String) (v : α) : List (String × α) :=
  match m with
  | [] => [(k, v)]
  | (k', v') :: rest => if k' = k then (k, v) :: rest else (k', v') :: mapSet rest k v

/-- Go map lookup `m[k]` / `ttlcache.Get` (an expired TTL entry behaves as
absence). -/
def mapGet {α : Type} (m : List (String × α)) (k : String) : Option α :=
  match m with
  | [] => none
  | (k', v') :: rest => if k' = k then some v' else mapGet rest k

/-- `tree.Tree`: the whole per-session state (its `mu` locks carry no
functional content and are omitted; `cache` is the TTL cache with expiry
modelled as absence). -/
structure Tree where
  root : Node
  currentDir : Node
  selectedIdx : Int
  visibleNodes : List Node
  nodeMap : List (String × Node)
  isLoading : Bool
  filesFound : Int
  dirsFound : Int
  cache : List (String × List Node)
  filter : Filter

/-- `(*Tree).GetStats`. -/
def Tree.GetStats (t : Tree) : Int × Int := (t.filesFound, t.dirsFound)

/-- `(*Tree).IsLoading`. -/
def Tree.IsLoading (t : Tree) : Bool := t.isLoading

/-- The accumulating state of one `fastwalk.Walk` invocation inside
`loadDirectory`: the `children` slice, the `posterMap`, and the `Tree` whose
`nodeMap` and counters the callback mutates. -/
structure WalkSt where
  children : List Node
  posterMap : List (String × String)
  tree : Tree

/-- The body of the `fastwalk.Walk` callback in `loadDirectory`, for one
immediate-child item of `node`: a walk error is swallowed (`return nil`),
a filtered entry is dropped, a poster file is recorded in `posterMap` under
its `TrimSuffix`-trimmed name and not added to `children`, and every other
entry becomes a child `Node`, is registered in `nodeMap`, and bumps exactly
one of the two counters. -/
def walkStep (node : Node) (s : WalkSt) (item : Except String Entry) : WalkSt :=
  match item with
  | .error _ => s
  | .ok e =>
    let name := e.name
    let path := node.path ++ "/" ++ name
    if (s.tree.filter).ShouldSkip name e.isDir then s
    else if IsPosterFile name then
      let base := goTrimSuffix (goTrimSuffix name "-poster.jpg") "-poster.jpeg"
      { s with posterMap := mapSet s.posterMap base path }
    else
      let child := Node.mk name path e.isDir [] (some node) (!e.isDir && IsVideoFile name) ""
      { s with
        children := s.children ++ [child],
        tree := { s.tree with
          nodeMap := mapSet s.tree.nodeMap path child,
          dirsFound := if e.isDir then s.tree.dirsFound + 1 else s.tree.dirsFound,
          filesFound := if e.isDir then s.tree.filesFound else s.tree.filesFound + 1 } }

/-- `(*Tree).associatePosters` for one child: look the child's base name up
in `posterMap`; failing that, for directories, look up the full name. -/
def associatePoster (posterMap : List (String × String)) (child : Node) : Node :=
  let baseName := goTrimSuffix child.name (filepathExt child.name)
  match mapGet posterMap baseName with
  | some p => child.withPosterPath p
  | none =>
    if child.isDir then
      match mapGet posterMap child.name with
      | some p => child.withPosterPath p
      | none => child
    else child

/-- `(*Tree).associatePosters` over the produced children (Go mutates the
nodes in place; the value model maps over them). -/
def associatePosters (children : List Node) (posterMap : List (String × String)) : List Node :=
  children.map (associatePoster posterMap)

/-- The body of one `(*Tree).loadDirectory` invocation, with the recursive
call abstracted as `recurse`: non-directories yield `nil`; a cache hit
returns the cached listing unchanged; otherwise the directory is walked one
level, posters are associated, subdirectories are recursed into when
`recursive` is set, and the result is stored in the cache. -/
def loadDirStep (fs : String → List (Except String Entry))
    (recurse : Tree → Node → List Node × Tree)
    (t : Tree) (node : Node) (recursive : Bool) : List Node × Tree :=
  if node.isDir = false then ([], t)
  else
    match mapGet t.cache node.path with
    | some cached => (cached, t)
    | none =>
      let s := (fs node.path).foldl (walkStep node) ⟨[], [], t⟩
      let children := associatePosters s.children s.posterMap
      if recursive then
        let r := children.foldl
          (fun (acc : List Node × Tree) c =>
            if c.isDir then
              let sub := recurse acc.2 c
              (acc.1 ++ [c.withChildren sub.1], sub.2)
            else (acc.1 ++ [c], acc.2))
          ([], s.tree)
        (r.1, { r.2 with cache := mapSet r.2.cache node.path r.1 })
      else
        (children, { s.tree with cache := mapSet s.tree.cache node.path children })

/-- `(*Tree).loadDirectory`: ties the recursive knot of `loadDirStep`.
`fuel` bounds the recursion depth of the warm-up mode (Go's recursion is
bounded by the finite filesystem depth; every claim below concerns
`recursive = false`, where the recursion is never taken and `fuel` is
irrelevant). -/
def loadDirectory (fs : String → List (Except String Entry)) :
    Nat → Tree → Node → Bool → List Node × Tree
  | 0, t, node, recursive =>
    loadDirStep fs (fun t' _ => ([], t')) t node recursive
  | fuel + 1, t, node, recursive =>
    loadDirStep fs (fun t' n' => loadDirectory fs fuel t' n' true) t node recursive

/-- In non-recursive mode the fuel is irrelevant: every invocation is one
plain `loadDirStep` whose recursion continuation is dead code. -/
lemma loadDirectory_false (fs : String → List (Except String Entry))
    (fuel : Nat) (t : Tree) (node : Node) :
    loadDirectory fs fuel t node false =
      loadDirStep fs (fun t' _ => ([], t')) t node false := by
  cases fuel with
  | zero => rfl
  | succ n =>
    show loadDirStep fs _ t node false = loadDirStep fs _ t node false
    unfold loadDirStep
    rcases hd : node.isDir with _ | _
    · simp
    · simp

/-- `(*Tree).UpdateVisibleNodes`: snapshot `currentDir`'s children and run
the two clamping conditionals on `selectedIdx`, in order. -/
def UpdateVisibleNodes (t : Tree) : Tree :=
  let vis := t.currentDir.children
  let idx1 : Int := if t.selectedIdx ≥ (vis.length : Int) then (vis.length : Int) - 1 else t.selectedIdx
  let idx2 : Int := if idx1 < 0 ∧ vis.length > 0 then 0 else idx1
  { t with visibleNodes := vis, selectedIdx := idx2 }

/-- `(*Tree).NavigateUp`. -/
def NavigateUp (t : Tree) (cols : Int) : Tree :=
  if t.selectedIdx ≥ cols then { t with selectedIdx := t.selectedIdx - cols } else t

/-- `(*Tree).NavigateDown`. -/
def NavigateDown (t : Tree) (cols : Int) : Tree :=
  let newIdx := t.selectedIdx + cols
  if newIdx < (t.visibleNodes.length : Int) then { t with selectedIdx := newIdx } else t

/-- `(*Tree).NavigateLeft`. -/
def NavigateLeft (t : Tree) : Tree :=
  if t.selectedIdx > 0 then { t with selectedIdx := t.selectedIdx - 1 } else t

/-- `(*Tree).NavigateRight`. -/
def NavigateRight (t : Tree) : Tree :=
  if t.selectedIdx < (t.visibleNodes.length : Int) - 1 then
    { t with selectedIdx := t.selectedIdx + 1 }
  else t

/-- `(*Tree).Enter`: no-op on an empty listing or a non-directory selection;
otherwise rescan the selected directory non-recursively through the cache,
replace its children, move the cursor into it and refresh.  The two guards
returning `t` on an out-of-range `selectedIdx` stand for the slice-index
panic `t.VisibleNodes[t.SelectedIdx]` would raise there in Go; both are
unreachable under the selection invariant. -/
def Enter (fs : String → List (Except String Entry)) (fuel : Nat) (t : Tree) : Tree :=
  if t.visibleNodes.length = 0 then t
  else if t.selectedIdx < 0 then t
  else
    match t.visibleNodes.get? t.selectedIdx.toNat with
    | none => t
    | some selected =>
      if selected.isDir = false then t
      else
        let r := loadDirectory fs fuel t selected false
        let selected' := selected.withChildren r.1
        UpdateVisibleNodes { r.2 with currentDir := selected', selectedIdx := 0 }

/-- `(*Tree).GoUp`. -/
def GoUp (t : Tree) : Tree :=
  match t.currentDir.parent with
  | none => t
  | some p => UpdateVisibleNodes { t with currentDir := p, selectedIdx := 0 }

/-- `os.FileInfo`, restricted to the one field `LoadAsync` consults. -/
structure FileInfo where
  isDir : Bool
deriving DecidableEq

/-- `tree.LoadAsync`, with the background warm-up goroutine modelled as
having run to completion after the synchronous part: a failed `os.Stat`
aborts; a `nil` filter is replaced by `DefaultFilter`; the root node and the
tree are built, the foreground `UpdateVisibleNodes` runs, then the goroutine
loads the whole subtree recursively, replaces the root's children, clears
`isLoading` and refreshes the visible nodes.  The `onProgress`/`onComplete`
callbacks and the cache-eviction goroutine have no effect on tree state and
are not modelled. -/
def LoadAsync (fs : String → List (Except String Entry))
    (statResult : Except String FileInfo) (rootPath : String)
    (filterArg : Option Filter) (fuel : Nat) : Except String Tree :=
  match statResult with
  | .error e => .error e
  | .ok info =>
    let f := match filterArg with
      | none => DefaultFilter
      | some g => g
    let root := Node.mk (filepathBase rootPath) rootPath info.isDir [] none false ""
    let t0 : Tree :=
      { root := root, currentDir := root, selectedIdx := 0, visibleNodes := []
        nodeMap := mapSet [] rootPath root, isLoading := true
        filesFound := 0, dirsFound := 0, cache := [], filter := f }
    let t1 := UpdateVisibleNodes t0
    let r := loadDirectory fs fuel t1 root true
    let root' := root.withChildren r.1
    let t2 := { r.2 with root := root', currentDir := root', isLoading := false }
    .ok (UpdateVisibleNodes t2)

/-- The selection invariant of the spec: a valid index into the visible
nodes when there are any, `-1` otherwise. -/
def SelInv (t : Tree) : Prop :=
  (t.visibleNodes.length = 0 → t.selectedIdx = -1) ∧
  (t.visibleNodes.length ≠ 0 → 0 ≤ t.selectedIdx ∧ t.selectedIdx < (t.visibleNodes.length : Int))

instance (t : Tree) : Decidable (SelInv t) := by
  unfold SelInv; infer_instance


/-! ### Concrete sample data used by witnesses and counterexamples -/

/-- A root directory node for sample scans. -/
def rNode : Node := Node.mk "r" "/r" true [] none false ""

/-- A plain video leaf node. -/
def leafVideo : Node := Node.mk "a.mp4" "/r/a.mp4" false [] (some rNode) true ""

/-- A freshly constructed tree over the sample root with the given filter. -/
def mkTree (f : Filter) : Tree :=
  { root := rNode, currentDir := rNode, selectedIdx := 0, visibleNodes := []
    nodeMap := [], isLoading := false, filesFound := 0, dirsFound := 0
    cache := [], filter := f }

/-- A filter with a cap of one child per directory and nothing skipped. -/
def capFilter : Filter := { SkipHidden := false, SkipExtensions := [], MaxChildrenShow := 1 }

/-- A filesystem whose root holds two plain video files. -/
def fsTwoVideos : String → List (Except String Entry) := fun p =>
  if p = "/r" then [.ok ⟨"a.mp4", false⟩, .ok ⟨"b.mp4", false⟩] else []

/-- The two-file movie directory, video first. -/
def fsOrderA : String → List (Except String Entry) := fun p =>
  if p = "/r" then [.ok ⟨"movie.mp4", false⟩, .ok ⟨"movie-poster.jpg", false⟩] else []

/-- The two-file movie directory, poster first. -/
def fsOrderB : String → List (Except String Entry) := fun p =>
  if p = "/r" then [.ok ⟨"movie-poster.jpg", false⟩, .ok ⟨"movie.mp4", false⟩] else []

/-- A filesystem on which every walk reports only a per-entry error (a
directory that cannot be opened at all). -/
def fsErrOnly : String → List (Except String Entry) := fun _ => [.error "permission denied"]

/-- A tree whose current listing has exactly one (file) node selected. -/
def navTree : Tree := { mkTree DefaultFilter with visibleNodes := [leafVideo] }

/-! ### Helper lemmas -/

/-- Whether the walk callback reaches the counter-update section for this
item: a non-error entry that is neither filtered out nor a poster file. -/
def countedItem (f : Filter) (item : Except String Entry) : Bool :=
  match item with
  | .error _ => false
  | .ok e => !(f.ShouldSkip e.name e.isDir) && !(IsPosterFile e.name)

/-- Whether a walk item is a successful entry rather than a per-entry error. -/
def isOkItem : Except String Entry → Bool
  | .ok _ => true
  | .error _ => false

lemma walkStep_filter_eq (node : Node) (s : WalkSt) (item : Except String Entry) :
    (walkStep node s item).tree.filter = s.tree.filter := by
  cases item with
  | error e => rfl
  | ok e =>
    simp only [walkStep]
    split
    · rfl
    · split <;> rfl

lemma walkStep_counters (node : Node) (s : WalkSt) (item : Except String Entry) :
    (walkStep node s item).tree.filesFound + (walkStep node s item).tree.dirsFound =
      s.tree.filesFound + s.tree.dirsFound +
        (if countedItem s.tree.filter item = true then 1 else 0) := by
  cases item with
  | error e => simp [walkStep, countedItem]
  | ok e =>
    simp only [walkStep, countedItem]
    by_cases hskip : (s.tree.filter).ShouldSkip e.name e.isDir = true
    · simp [hskip]
    · simp only [Bool.not_eq_true] at hskip
      by_cases hp : IsPosterFile e.name = true
      · simp [hskip, hp]
      · simp only [Bool.not_eq_true] at hp
        simp only [hskip, hp, Bool.not_false, Bool.and_self, if_true,
          Bool.false_eq_true, if_false]
        by_cases hd : e.isDir = true <;> simp [hd] <;> omega

lemma foldl_walkStep_counters (node : Node) (items : List (Except String Entry)) (s : WalkSt) :
    ((items.foldl (walkStep node) s).tree.filesFound +
        (items.foldl (walkStep node) s).tree.dirsFound) =
      s.tree.filesFound + s.tree.dirsFound +
        ((items.countP (countedItem s.tree.filter) : Nat) : Int) := by
  induction items generalizing s with
  | nil => simp
  | cons i is ih =>
    have h1 := ih (walkStep node s i)
    rw [walkStep_filter_eq] at h1
    have h2 := walkStep_counters node s i
    simp only [List.foldl_cons, List.countP_cons]
    by_cases hci : countedItem s.tree.filter i = true
    · rw [if_pos hci] at h2 ⊢
      push_cast
      omega
    · rw [if_neg hci] at h2 ⊢
      push_cast
      omega

lemma foldl_walkStep_drop_errors (node : Node) (items : List (Except String Entry)) (s : WalkSt) :
    items.foldl (walkStep node) s = (items.filter isOkItem).foldl (walkStep node) s := by
  induction items generalizing s with
  | nil => rfl
  | cons i is ih =>
    cases i with
    | error e => simpa [isOkItem, walkStep] using ih s
    | ok e => simp [isOkItem, List.filter_cons, ih]

lemma selInv_updateVisibleNodes (t : Tree) (h : -1 ≤ t.selectedIdx) :
    SelInv (UpdateVisibleNodes t) := by
  simp only [SelInv, UpdateVisibleNodes]
  constructor <;> intro h0 <;> split_ifs <;> omega

lemma selInv_navigateUp (t : Tree) (cols : Int) (hc : 1 ≤ cols) (h : SelInv t) :
    SelInv (NavigateUp t cols) := by
  obtain ⟨h1, h2⟩ := h
  simp only [NavigateUp, SelInv]
  by_cases hl : t.visibleNodes.length = 0
  · specialize h1 hl
    clear h2
    split_ifs <;> constructor <;> intro h0 <;> (try dsimp only at h0 ⊢) <;> omega
  · specialize h2 hl
    clear h1
    split_ifs <;> constructor <;> intro h0 <;> (try dsimp only at h0 ⊢) <;> omega

lemma selInv_navigateDown (t : Tree) (cols : Int) (hc : 1 ≤ cols) (h : SelInv t) :
    SelInv (NavigateDown t cols) := by
  obtain ⟨h1, h2⟩ := h
  simp only [NavigateDown, SelInv]
  by_cases hl : t.visibleNodes.length = 0
  · specialize h1 hl
    clear h2
    split_ifs <;> constructor <;> intro h0 <;> (try dsimp only at h0 ⊢) <;> omega
  · specialize h2 hl
    clear h1
    split_ifs <;> constructor <;> intro h0 <;> (try dsimp only at h0 ⊢) <;> omega

lemma selInv_navigateLeft (t : Tree) (h : SelInv t) : SelInv (NavigateLeft t) := by
  obtain ⟨h1, h2⟩ := h
  simp only [NavigateLeft, SelInv]
  by_cases hl : t.visibleNodes.length = 0
  · specialize h1 hl
    clear h2
    split_ifs <;> constructor <;> intro h0 <;> (try dsimp only at h0 ⊢) <;> omega
  · specialize h2 hl
    clear h1
    split_ifs <;> constructor <;> intro h0 <;> (try dsimp only at h0 ⊢) <;> omega

lemma selInv_navigateRight (t : Tree) (h : SelInv t) : SelInv (NavigateRight t) := by
  obtain ⟨h1, h2⟩ := h
  simp only [NavigateRight, SelInv]
  by_cases hl : t.visibleNodes.length = 0
  · specialize h1 hl
    clear h2
    split_ifs <;> constructor <;> intro h0 <;> (try dsimp only at h0 ⊢) <;> omega
  · specialize h2 hl
    clear h1
    split_ifs <;> constructor <;> intro h0 <;> (try dsimp only at h0 ⊢) <;> omega

lemma selInv_enter (fs : String → List (Except String Entry)) (fuel : Nat) (t : Tree)
    (h : SelInv t) : SelInv (Enter fs fuel t) := by
  unfold Enter
  split_ifs with hlen hneg
  · exact h
  · exact h
  · rcases hget : t.visibleNodes.get? t.selectedIdx.toNat with _ | sel
    · simp only [hget]
      exact h
    · simp only [hget]
      split_ifs with hd
      · exact h
      · exact selInv_updateVisibleNodes _ (by dsimp only; omega)

lemma selInv_goUp (t : Tree) (h : SelInv t) : SelInv (GoUp t) := by
  unfold GoUp
  rcases hp : t.currentDir.parent with _ | p
  · simp only [hp]
    exact h
  · simp only [hp]
    exact selInv_updateVisibleNodes _ (by dsimp only; omega)

/-! ### Claim theorems -/

/-- C1: the spec says a one-level scan returns at most
Filter.MaxChildrenShow children (min(N, C)); in the code the field is
declared and documented but never read, so a scan of a directory with two
entries that pass a cap-1 filter returns both children instead of one. -/
theorem maxChildrenShow_not_enforced :
    capFilter.MaxChildrenShow = 1 ∧
    capFilter.ShouldSkip "a.mp4" false = false ∧
    capFilter.ShouldSkip "b.mp4" false = false ∧
    (loadDirectory fsTwoVideos 0 (mkTree capFilter) rNode false).1.length = 2 ∧
    ¬((loadDirectory fsTwoVideos 0 (mkTree capFilter) rNode false).1.length = min 2 1) := by
  decide

/-- C6: poster association does not depend on the order in which the walk
enumerates the directory: with the two files movie.mp4 and movie-poster.jpg
listed in either order, the node produced for movie.mp4 carries the
poster's full path. -/
theorem poster_association_order_independent (firstOrder : Bool) :
    ((loadDirectory (if firstOrder then fsOrderA else fsOrderB) 0
        (mkTree DefaultFilter) rNode false).1.map
      (fun n => (n.name, n.posterPath))) = [("movie.mp4", "/r/movie-poster.jpg")] := by
  cases firstOrder <;> decide

/-- C10: when the cache holds an entry for a directory's path,
loadDirectory returns the cached children unchanged and the whole tree
state — counters, node map, cache — is left exactly as it was, in both the
on-demand and the recursive mode. -/
theorem cache_hit_returns_cached_unchanged (fs : String → List (Except String Entry))
    (fuel : Nat) (t : Tree) (node : Node) (cached : List Node)
    (hdir : node.isDir = true)
    (hhit : mapGet t.cache node.path = some cached) :
    loadDirectory fs fuel t node false = (cached, t) ∧
    loadDirectory fs fuel t node true = (cached, t) := by
  constructor
  · rw [loadDirectory_false]
    unfold loadDirStep
    simp [hdir, hhit]
  · cases fuel with
    | zero =>
      unfold loadDirectory loadDirStep
      simp [hdir, hhit]
    | succ n =>
      unfold loadDirectory loadDirStep
      simp [hdir, hhit]

/-- C10 witness: a concrete cache hit. -/
theorem cache_hit_returns_cached_unchanged_witness :
    loadDirectory fsTwoVideos 0
        { mkTree DefaultFilter with cache := [("/r", [leafVideo])] } rNode false =
      ([leafVideo], { mkTree DefaultFilter with cache := [("/r", [leafVideo])] }) ∧
    loadDirectory fsTwoVideos 0
        { mkTree DefaultFilter with cache := [("/r", [leafVideo])] } rNode true =
      ([leafVideo], { mkTree DefaultFilter with cache := [("/r", [leafVideo])] }) :=
  cache_hit_returns_cached_unchanged fsTwoVideos 0
    { mkTree DefaultFilter with cache := [("/r", [leafVideo])] } rNode [leafVideo] rfl rfl

/-- A one-poster directory: the file passes the DefaultFilter but is a
poster candidate. -/
def fsPosterOnly : String → List (Except String Entry) := fun p =>
  if p = "/r" then [.ok ⟨"movie-poster.jpg", false⟩] else []

/-- The movie directory with a capitalised poster name. -/
def fsCased : String → List (Except String Entry) := fun p =>
  if p = "/r" then [.ok ⟨"Movie.mp4", false⟩, .ok ⟨"Movie-Poster.jpg", false⟩] else []

/-- C2 (counterexample): movie-poster.jpg is not skipped by the
DefaultFilter, yet scanning a directory holding only it increments neither
counter — the poster branch returns before the counter update. -/
theorem counters_skip_posters_cex :
    DefaultFilter.ShouldSkip "movie-poster.jpg" false = false ∧
    (loadDirectory fsPosterOnly 0 (mkTree DefaultFilter) rNode false).2.filesFound = 0 ∧
    (loadDirectory fsPosterOnly 0 (mkTree DefaultFilter) rNode false).2.dirsFound = 0 := by
  decide

/-- C2 (amended): every scanned entry that is neither skipped by the
Filter nor classified as a poster file increments exactly one counter —
dirsFound for directories, filesFound otherwise — and a one-level scan
grows filesFound + dirsFound by exactly the number of such entries. -/
theorem counters_track_nonskipped_nonposter
    (fs : String → List (Except String Entry)) (fuel : Nat) (t : Tree) (node : Node)
    (s : WalkSt) (e : Entry)
    (hskip : (s.tree.filter).ShouldSkip e.name e.isDir = false)
    (hpost : IsPosterFile e.name = false)
    (hdir : node.isDir = true)
    (hmiss : mapGet t.cache node.path = none) :
    ((walkStep node s (.ok e)).tree.dirsFound =
        (if e.isDir then s.tree.dirsFound + 1 else s.tree.dirsFound) ∧
     (walkStep node s (.ok e)).tree.filesFound =
        (if e.isDir then s.tree.filesFound else s.tree.filesFound + 1)) ∧
    ((loadDirectory fs fuel t node false).2.filesFound +
        (loadDirectory fs fuel t node false).2.dirsFound =
      t.filesFound + t.dirsFound +
        (((fs node.path).countP (countedItem t.filter) : Nat) : Int)) := by
  constructor
  · constructor <;> simp [walkStep, hskip, hpost]
  · rw [loadDirectory_false]
    unfold loadDirStep
    simp only [hdir, hmiss, Bool.true_eq_false, if_false, Bool.false_eq_true, if_neg,
      not_false_eq_true]
    simpa using foldl_walkStep_counters node (fs node.path) ⟨[], [], t⟩

/-- C2 witness: scanning the two-video directory counts two files and no
directories; a single plain video entry bumps only filesFound. -/
theorem counters_track_nonskipped_nonposter_witness :
    ((walkStep rNode ⟨[], [], mkTree DefaultFilter⟩
          (.ok { name := "a.mp4", isDir := false })).tree.dirsFound = 0 ∧
     (walkStep rNode ⟨[], [], mkTree DefaultFilter⟩
          (.ok { name := "a.mp4", isDir := false })).tree.filesFound = 1) ∧
    ((loadDirectory fsTwoVideos 0 (mkTree DefaultFilter) rNode false).2.filesFound +
        (loadDirectory fsTwoVideos 0 (mkTree DefaultFilter) rNode false).2.dirsFound = 2) :=
  counters_track_nonskipped_nonposter fsTwoVideos 0 (mkTree DefaultFilter) rNode
    ⟨[], [], mkTree DefaultFilter⟩ { name := "a.mp4", isDir := false }
    (by decide) (by decide) rfl rfl

/-- C3 (counterexample): Movie-Poster.jpg is detected as a poster
(detection lowers the name) but the key stripping uses the case-sensitive
TrimSuffix with the lowercase literals, so the poster lookup records the
full unstripped name and the sibling Movie.mp4 never receives a poster. -/
theorem poster_key_not_stripped_cex :
    IsPosterFile "Movie-Poster.jpg" = true ∧
    DefaultFilter.ShouldSkip "Movie-Poster.jpg" false = false ∧
    (let s := [Except.ok { name := "Movie-Poster.jpg", isDir := false }].foldl
        (walkStep rNode) ⟨[], [], mkTree DefaultFilter⟩
     s.children.length = 0 ∧
     s.posterMap = [("Movie-Poster.jpg", "/r/Movie-Poster.jpg")] ∧
     mapGet s.posterMap "Movie" = none) ∧
    ((loadDirectory fsCased 0 (mkTree DefaultFilter) rNode false).1.map
        (fun n => (n.name, n.posterPath)) = [("Movie.mp4", "")]) := by
  decide

/-- C3 (amended): a non-filtered poster candidate is not added to the
children and is recorded in the poster lookup mapped to its full path, under
the key obtained by case-sensitively trimming the literal suffix
-poster.jpg and then -poster.jpeg from its name (equal to the base name
with suffix and extension stripped only when the suffix occurs in exactly
lowercase); counters and node map are untouched. -/
theorem poster_candidate_recorded (node : Node) (s : WalkSt) (e : Entry)
    (hskip : (s.tree.filter).ShouldSkip e.name e.isDir = false)
    (hp : IsPosterFile e.name = true) :
    walkStep node s (.ok e) =
      ⟨s.children,
       mapSet s.posterMap
         (goTrimSuffix (goTrimSuffix e.name "-poster.jpg") "-poster.jpeg")
         (node.path ++ "/" ++ e.name),
       s.tree⟩ := by
  simp [walkStep, hskip, hp]

/-- C3 witness: the lowercase movie-poster.jpg is recorded under the
stripped key movie. -/
theorem poster_candidate_recorded_witness :
    walkStep rNode ⟨[], [], mkTree DefaultFilter⟩
        (.ok { name := "movie-poster.jpg", isDir := false }) =
      ⟨[], [("movie", "/r/movie-poster.jpg")], mkTree DefaultFilter⟩ :=
  poster_candidate_recorded rNode ⟨[], [], mkTree DefaultFilter⟩
    { name := "movie-poster.jpg", isDir := false } (by decide) (by decide)

lemma withPosterPath_posterPath (c : Node) (p : String) :
    (c.withPosterPath p).posterPath = p := by
  cases c
  rfl

lemma withPosterPath_children (c : Node) (p : String) :
    (c.withPosterPath p).children = c.children := by
  cases c
  rfl

lemma associatePoster_children (pm : List (String × String)) (c : Node) :
    (associatePoster pm c).children = c.children := by
  unfold associatePoster
  cases hb : mapGet pm (goTrimSuffix c.name (filepathExt c.name)) with
  | some q => simp [hb, withPosterPath_children]
  | none =>
    by_cases hd : c.isDir = true
    · cases hn : mapGet pm c.name with
      | some q => simp [hb, hd, hn, withPosterPath_children]
      | none => simp [hb, hd, hn]
    · simp [hb, hd]

/-- A parent-level poster named exactly like a directory child. -/
def showDir : Node := Node.mk "Show.2020" "/r/Show.2020" true [] none false ""

/-- C7: a directory child whose base name (name with the extension
stripped) has no poster-lookup entry falls back to a lookup of its full
name, and a hit sets its posterPath; the association never touches any
child's own children. -/
theorem dir_poster_by_full_name (pm : List (String × String)) (child : Node) (p : String)
    (hdir : child.isDir = true)
    (hbase : mapGet pm (goTrimSuffix child.name (filepathExt child.name)) = none)
    (hname : mapGet pm child.name = some p) :
    (associatePoster pm child).posterPath = p ∧
    (∀ c : Node, (associatePoster pm c).children = c.children) ∧
    (∀ cs : List Node, (associatePosters cs pm).map Node.children = cs.map Node.children) := by
  refine ⟨?_, fun c => associatePoster_children pm c, ?_⟩
  · unfold associatePoster
    simp [hbase, hdir, hname, withPosterPath_posterPath]
  · intro cs
    unfold associatePosters
    rw [List.map_map]
    apply List.map_congr_left
    intro c _
    exact associatePoster_children pm c

/-- C7 witness: the directory Show.2020 picks up Show.2020-poster.jpg via
the full-name fallback (its base name Show has no entry). -/
theorem dir_poster_by_full_name_witness :
    (associatePoster [("Show.2020", "/r/Show.2020-poster.jpg")] showDir).posterPath =
        "/r/Show.2020-poster.jpg" ∧
    (∀ c : Node, (associatePoster [("Show.2020", "/r/Show.2020-poster.jpg")] c).children =
        c.children) ∧
    (∀ cs : List Node,
        (associatePosters cs [("Show.2020", "/r/Show.2020-poster.jpg")]).map Node.children =
          cs.map Node.children) :=
  dir_poster_by_full_name [("Show.2020", "/r/Show.2020-poster.jpg")] showDir
    "/r/Show.2020-poster.jpg" rfl (by decide) (by decide)

/-- C8: per-entry walk errors are swallowed (the callback returns nil and
scanning continues exactly as if the erroring entries were absent); a
directory whose walk yields only errors produces an empty children list
rather than an error; and LoadAsync surfaces exactly the os.Stat failure of
the root path — any other outcome is a constructed tree. -/
theorem scan_errors_swallowed (fs : String → List (Except String Entry))
    (node : Node) (t : Tree) (e : String)
    (items : List (Except String Entry)) (s : WalkSt)
    (rootPath : String) (fo : Option Filter) (fuel : Nat) (info : FileInfo)
    (herr : ∀ i ∈ fs node.path, isOkItem i = false)
    (hdir : node.isDir = true)
    (hmiss : mapGet t.cache node.path = none) :
    walkStep node s (.error e) = s ∧
    items.foldl (walkStep node) s = (items.filter isOkItem).foldl (walkStep node) s ∧
    (loadDirectory fs fuel t node false).1 = [] ∧
    LoadAsync fs (.error e) rootPath fo fuel = .error e ∧
    (∃ tr : Tree, LoadAsync fs (.ok info) rootPath fo fuel = .ok tr) := by
  refine ⟨rfl, foldl_walkStep_drop_errors node items s, ?_, rfl, ⟨_, rfl⟩⟩
  have hnil : (fs node.path).filter isOkItem = [] := by
    rw [List.filter_eq_nil_iff]
    intro a ha
    simp [herr a ha]
  have hfold : (fs node.path).foldl (walkStep node) ⟨[], [], t⟩ =
      (⟨[], [], t⟩ : WalkSt) := by
    rw [foldl_walkStep_drop_errors, hnil]
    rfl
  rw [loadDirectory_false]
  unfold loadDirStep
  simp [hdir, hmiss, hfold, associatePosters]

/-- C8 witness: a root whose walk reports only a permission error yields an
empty listing, and the stat outcomes map to the two LoadAsync results. -/
theorem scan_errors_swallowed_witness :
    walkStep rNode ⟨[], [], mkTree DefaultFilter⟩ (.error "boom") =
      (⟨[], [], mkTree DefaultFilter⟩ : WalkSt) ∧
    [Except.error "boom"].foldl (walkStep rNode) ⟨[], [], mkTree DefaultFilter⟩ =
      ([Except.error "boom"].filter isOkItem).foldl (walkStep rNode)
        ⟨[], [], mkTree DefaultFilter⟩ ∧
    (loadDirectory fsErrOnly 0 (mkTree DefaultFilter) rNode false).1 = [] ∧
    LoadAsync fsErrOnly (.error "boom") "/r" none 0 = .error "boom" ∧
    (∃ tr : Tree, LoadAsync fsErrOnly (.ok ⟨true⟩) "/r" none 0 = .ok tr) :=
  scan_errors_swallowed fsErrOnly rNode (mkTree DefaultFilter) "boom"
    [Except.error "boom"] ⟨[], [], mkTree DefaultFilter⟩ "/r" none 0 ⟨true⟩
    (by decide) rfl rfl

/-- C9: a nil filter argument makes LoadAsync behave exactly as with
DefaultFilter, which skips names starting with a dot, skips files with a
.nfo or .png extension, and carries MaxChildrenShow 1000. -/
theorem nil_filter_defaults (fs : String → List (Except String Entry))
    (statRes : Except String FileInfo) (rootPath : String) (fuel : Nat)
    (name : String) (d : Bool) (name2 : String)
    (hhid : goStartsWith name "." = true)
    (hext : goToLower (filepathExt name2) = ".nfo" ∨ goToLower (filepathExt name2) = ".png") :
    LoadAsync fs statRes rootPath none fuel =
      LoadAsync fs statRes rootPath (some DefaultFilter) fuel ∧
    DefaultFilter.ShouldSkip name d = true ∧
    DefaultFilter.ShouldSkip name2 false = true ∧
    DefaultFilter.MaxChildrenShow = 1000 ∧
    DefaultFilter.SkipHidden = true ∧
    DefaultFilter.SkipExtensions = [".nfo", ".png"] := by
  refine ⟨rfl, ?_, ?_, rfl, rfl, rfl⟩
  · simp [Filter.ShouldSkip, DefaultFilter, hhid]
  · by_cases hs : goStartsWith name2 "." = true <;>
      rcases hext with h | h <;>
        simp [Filter.ShouldSkip, DefaultFilter, hs, h]

/-- C9 witness: concrete hidden and blacklisted names. -/
theorem nil_filter_defaults_witness :
    LoadAsync fsTwoVideos (.ok ⟨true⟩) "/r" none 0 =
      LoadAsync fsTwoVideos (.ok ⟨true⟩) "/r" (some DefaultFilter) 0 ∧
    DefaultFilter.ShouldSkip ".git" true = true ∧
    DefaultFilter.ShouldSkip "movie.nfo" false = true ∧
    DefaultFilter.MaxChildrenShow = 1000 ∧
    DefaultFilter.SkipHidden = true ∧
    DefaultFilter.SkipExtensions = [".nfo", ".png"] :=
  nil_filter_defaults fsTwoVideos (.ok ⟨true⟩) "/r" 0 ".git" true "movie.nfo"
    (by decide) (Or.inl (by decide))

/-- C4: the selection invariant — a valid index whenever the visible list
is non-empty, -1 when it is empty — is preserved by every tree operation:
the four navigation moves (with a column count of at least one),
UpdateVisibleNodes, Enter, and GoUp. -/
theorem selection_invariant_preserved (t : Tree) (cols : Int)
    (fs : String → List (Except String Entry)) (fuel : Nat)
    (hc : 1 ≤ cols) (h : SelInv t) :
    SelInv (NavigateUp t cols) ∧ SelInv (NavigateDown t cols) ∧
    SelInv (NavigateLeft t) ∧ SelInv (NavigateRight t) ∧
    SelInv (UpdateVisibleNodes t) ∧ SelInv (Enter fs fuel t) ∧ SelInv (GoUp t) :=
  ⟨selInv_navigateUp t cols hc h, selInv_navigateDown t cols hc h,
   selInv_navigateLeft t h, selInv_navigateRight t h,
   selInv_updateVisibleNodes t (by
     rcases h with ⟨h1, h2⟩
     by_cases hl : t.visibleNodes.length = 0
     · simp [h1 hl]
     · have h3 := h2 hl
       omega),
   selInv_enter fs fuel t h, selInv_goUp t h⟩

/-- C4 witness: a tree with one visible node and the cursor on it. -/
theorem selection_invariant_preserved_witness :
    SelInv (NavigateUp navTree 2) ∧ SelInv (NavigateDown navTree 2) ∧
    SelInv (NavigateLeft navTree) ∧ SelInv (NavigateRight navTree) ∧
    SelInv (UpdateVisibleNodes navTree) ∧
    SelInv (Enter fsTwoVideos 0 navTree) ∧ SelInv (GoUp navTree) :=
  selection_invariant_preserved navTree 2 fsTwoVideos 0 (by decide) (by decide)

/-- C5: the four navigation moves are pure cursor arithmetic on the
row-major grid: Up subtracts the column count unless that would go below
zero, Down adds it unless the result would reach past the last index, Left
and Right move by one with a no-op at their boundary, and none of them
ever changes the current directory or the visible snapshot. -/
theorem navigation_pure_cursor_arithmetic (t : Tree) (cols : Int) (_hc : 1 ≤ cols) :
    (t.selectedIdx < cols → NavigateUp t cols = t) ∧
    (cols ≤ t.selectedIdx → (NavigateUp t cols).selectedIdx = t.selectedIdx - cols) ∧
    ((t.visibleNodes.length : Int) ≤ t.selectedIdx + cols → NavigateDown t cols = t) ∧
    (t.selectedIdx + cols < (t.visibleNodes.length : Int) →
        (NavigateDown t cols).selectedIdx = t.selectedIdx + cols) ∧
    (t.selectedIdx = 0 → NavigateLeft t = t) ∧
    (t.selectedIdx = (t.visibleNodes.length : Int) - 1 → NavigateRight t = t) ∧
    (NavigateUp t cols).currentDir = t.currentDir ∧
    (NavigateUp t cols).visibleNodes = t.visibleNodes ∧
    (NavigateDown t cols).currentDir = t.currentDir ∧
    (NavigateDown t cols).visibleNodes = t.visibleNodes ∧
    (NavigateLeft t).currentDir = t.currentDir ∧
    (NavigateLeft t).visibleNodes = t.visibleNodes ∧
    (NavigateRight t).currentDir = t.currentDir ∧
    (NavigateRight t).visibleNodes = t.visibleNodes := by
  refine ⟨?_, ?_, ?_, ?_, ?_, ?_, ?_, ?_, ?_, ?_, ?_, ?_, ?_, ?_⟩
  · intro h
    simp only [NavigateUp]
    rw [if_neg (by omega)]
  · intro h
    simp only [NavigateUp]
    rw [if_pos (by omega)]
  · intro h
    simp only [NavigateDown]
    rw [if_neg (by omega)]
  · intro h
    simp only [NavigateDown]
    rw [if_pos (by omega)]
  · intro h
    simp only [NavigateLeft]
    rw [if_neg (by omega)]
  · intro h
    simp only [NavigateRight]
    rw [if_neg (by omega)]
  · simp only [NavigateUp]
    split <;> rfl
  · simp only [NavigateUp]
    split <;> rfl
  · simp only [NavigateDown]
    split <;> rfl
  · simp only [NavigateDown]
    split <;> rfl
  · simp only [NavigateLeft]
    split <;> rfl
  · simp only [NavigateLeft]
    split <;> rfl
  · simp only [NavigateRight]
    split <;> rfl
  · simp only [NavigateRight]
    split <;> rfl

/-- C5 witness: the single-node tree with one column. -/
theorem navigation_pure_cursor_arithmetic_witness :
    (navTree.selectedIdx < 1 → NavigateUp navTree 1 = navTree) ∧
    (1 ≤ navTree.selectedIdx → (NavigateUp navTree 1).selectedIdx = navTree.selectedIdx - 1) ∧
    ((navTree.visibleNodes.length : Int) ≤ navTree.selectedIdx + 1 →
        NavigateDown navTree 1 = navTree) ∧
    (navTree.selectedIdx + 1 < (navTree.visibleNodes.length : Int) →
        (NavigateDown navTree 1).selectedIdx = navTree.selectedIdx + 1) ∧
    (navTree.selectedIdx = 0 → NavigateLeft navTree = navTree) ∧
    (navTree.selectedIdx = (navTree.visibleNodes.length : Int) - 1 →
        NavigateRight navTree = navTree) ∧
    (NavigateUp navTree 1).currentDir = navTree.currentDir ∧
    (NavigateUp navTree 1).visibleNodes = navTree.visibleNodes ∧
    (NavigateDown navTree 1).currentDir = navTree.currentDir ∧
    (NavigateDown navTree 1).visibleNodes = navTree.visibleNodes ∧
    (NavigateLeft navTree).currentDir = navTree.currentDir ∧
    (NavigateLeft navTree).visibleNodes = navTree.visibleNodes ∧
    (NavigateRight navTree).currentDir = navTree.currentDir ∧
    (NavigateRight navTree).visibleNodes = navTree.visibleNodes :=
  navigation_pure_cursor_arithmetic navTree 1 (by decide)

end MediaPosters
